import Mathlib

/-!
Shallow embedding of the Tower-Game stacking engine (`GameEngine` in the
engine source file) together with its configuration (`GAME_CONFIG` in
`constants.ts`).

Modelling conventions:
* every JavaScript number that the engine manipulates is an exact
  rational (`ℚ`); `score`, `comboCounter` and the reported multiplier are
  natural numbers (the engine only ever stores non-negative integers in
  them);
* the callbacks `onScoreUpdate` / `onGameOver` are modelled as a list of
  `GameEvent`s returned next to the successor state;
* a JavaScript `TypeError` (property access on `undefined`, which the
  engine can hit when it reads the top of an empty stack) is modelled as
  `none`;
* every `Math.random()` draw is supplied by an explicit environment
  (`Env`); the particle velocity, which the source obtains by normalising
  a random vector (an operation that leaves `ℚ`), is likewise supplied by
  the environment;
* rendering, lighting, camera, resize and audio calls are presentation
  effects with no influence on the engine state and are omitted.
-/

namespace TowerGame

/-- A 3-component vector of exact rationals. -/
structure Vec3 where
  x : ℚ
  y : ℚ
  z : ℚ
deriving DecidableEq

/-- A block: mesh position plus the horizontal extents of its box
geometry (the height is always `blockHeight`). -/
structure Block where
  pos : Vec3
  width : ℚ
  depth : ℚ
deriving DecidableEq

/-- An entry of the `debris` collection: a detached fragment with its
rotation, linear velocity and angular velocity. -/
structure DebrisEntity where
  block : Block
  rot : Vec3
  velocity : Vec3
  rotVelocity : Vec3
deriving DecidableEq

/-- An entry of the `particles` collection. `opacity` mirrors the
material opacity the tick loop writes each frame (materials start fully
opaque). -/
structure ParticleEntity where
  pos : Vec3
  rot : Vec3
  velocity : Vec3
  life : ℚ
  opacity : ℚ
deriving DecidableEq

/-- The oscillation axis (`this.axis : 'x' | 'z'`). -/
inductive Axis
  | x
  | z
deriving DecidableEq

/-- Callback invocations of the engine, in invocation order. -/
inductive GameEvent
  | scoreUpdate (score : ℕ) (multiplier : ℕ)
  | gameOver (finalScore : ℕ)
deriving DecidableEq

/-- The mutable fields of `GameEngine` that carry game state.
`animationRunning` stands for a live `animationId` request. -/
structure EngineState where
  stack : List Block
  debris : List DebrisEntity
  particles : List ParticleEntity
  animationRunning : Bool
  isGameRunning : Bool
  score : ℕ
  axis : Axis
  direction : ℤ
  currentBlock : Option Block
  comboCounter : ℕ
deriving DecidableEq

/-! ## Configuration (`GAME_CONFIG`) -/

def defaultBlockSize : ℚ := 3
def blockHeight : ℚ := 1
def moveSpeed : ℚ := 3/20
def errorTolerance : ℚ := 1/5
def initialErrorTolerance : ℚ := 3/5
def difficultyRamp : ℕ := 15
def comboThreshold : ℕ := 3
def growthFactor : ℚ := 1/2

/-! ## Randomness environment -/

/-- The `Math.random()` draws consumed when one particle is created.
`velocity` stands for the normalised, scaled random vector of the
source (normalisation uses a square root, so the resulting components
are taken as given inputs). -/
structure ParticleRand where
  rx : ℚ
  rz : ℚ
  rl : ℚ
  velocity : Vec3
deriving DecidableEq

/-- The `Math.random()` draws consumed when one debris entity is created
(two lateral draws, one vertical draw, three angular draws). -/
structure DebrisRand where
  r1 : ℚ
  r2 : ℚ
  r3 : ℚ
  r4 : ℚ
  r5 : ℚ
  r6 : ℚ
deriving DecidableEq

/-- Randomness supplied to one `placeBlock` call. -/
structure Env where
  prand : ℕ → ParticleRand
  drand : DebrisRand
  grand : DebrisRand

/-- A fixed all-zero randomness environment, used for concrete runs. -/
def prand0 : ParticleRand := ⟨0, 0, 0, ⟨0, 0, 0⟩⟩

def drand0 : DebrisRand := ⟨0, 0, 0, 0, 0, 0⟩

def env0 : Env := ⟨fun _ => prand0, drand0, drand0⟩

/-! ## Pure helpers of the engine -/

/-- The extent of a block along the given axis. -/
def refExtent (axis : Axis) (b : Block) : ℚ :=
  match axis with
  | .x => b.width
  | .z => b.depth

/-- The extent of a block along the axis perpendicular to the given one. -/
def perpExtent (axis : Axis) (b : Block) : ℚ :=
  match axis with
  | .x => b.depth
  | .z => b.width

/-- The signed offset of the moving block from the tower top along the
active axis (`delta` in `placeBlock`). -/
def theDelta (axis : Axis) (cur top : Block) : ℚ :=
  match axis with
  | .x => cur.pos.x - top.pos.x
  | .z => cur.pos.z - top.pos.z

/-- The alignment tolerance `placeBlock` computes from the current
score: linear interpolation from `initialErrorTolerance` down to
`errorTolerance` over the first `difficultyRamp` points, clamped to
`errorTolerance` afterwards. -/
def currentTolerance (score : ℕ) : ℚ :=
  if score < difficultyRamp then
    initialErrorTolerance -
      ((score : ℚ) / (difficultyRamp : ℚ)) * (initialErrorTolerance - errorTolerance)
  else errorTolerance

/-- The score multiplier `handleSuccessfulPlacement` computes from the
combo counter (`Math.floor` on non-negative integers is `Nat` division). -/
def scoreMultiplier (combo : ℕ) : ℕ :=
  if comboThreshold ≤ combo then combo / comboThreshold + 1 else 1

/-- Extent of the next spawned block derived from the tower-top extent
(`spawnNextBlock` grows it by `growthFactor`, capped at
`defaultBlockSize`, once the combo has reached `comboThreshold`). -/
def grownExtent (combo : ℕ) (e : ℚ) : ℚ :=
  if comboThreshold ≤ combo ∧ e < defaultBlockSize then
    min defaultBlockSize (e + growthFactor)
  else e

def toggleAxis : Axis → Axis
  | .x => .z
  | .z => .x

/-! ## Engine operations -/

/-- The base block created by `spawnBaseBlock`. -/
def baseBlock : Block :=
  { pos := ⟨0, 0, 0⟩, width := defaultBlockSize, depth := defaultBlockSize }

/-- `cleanup`: removes every mesh from the scene and empties all
collections; scores and flags are untouched. -/
def cleanup (st : EngineState) : EngineState :=
  { st with stack := [], debris := [], particles := [], currentBlock := none }

/-- `spawnBaseBlock`: clears the collections and pushes the base block. -/
def spawnBaseBlock (st : EngineState) : EngineState :=
  let st := cleanup st
  { st with stack := [baseBlock] }

def spawnDist : ℚ := 12

/-- The block `spawnNextBlock` installs: extents are the tower-top ones
after combo growth, the position is offset by `spawnDist` along the
active axis and raised by one layer. -/
def spawnedBlock (axis : Axis) (combo : ℕ) (prevBlock : Block) : Block :=
  let width := grownExtent combo prevBlock.width
  let depth := grownExtent combo prevBlock.depth
  let pos : Vec3 :=
    match axis with
    | .x => ⟨prevBlock.pos.x - spawnDist, prevBlock.pos.y + blockHeight, prevBlock.pos.z⟩
    | .z => ⟨prevBlock.pos.x, prevBlock.pos.y + blockHeight, prevBlock.pos.z - spawnDist⟩
  { pos := pos, width := width, depth := depth }

/-- `spawnNextBlock`: reads the tower top (a `TypeError` on an empty
stack, hence `none`), applies combo growth, and installs the new moving
block offset by `spawnDist` along the active axis. -/
def spawnNextBlock (st : EngineState) : Option EngineState :=
  match st.stack.getLast? with
  | none => none
  | some prevBlock =>
    some { st with currentBlock := some (spawnedBlock st.axis st.comboCounter prevBlock) }

/-- `startGame`: full reset, report score 0 with multiplier 1, re-add the
base block and spawn the first moving block. -/
def startGame (st : EngineState) : Option (EngineState × List GameEvent) :=
  let st := cleanup st
  let st := { st with isGameRunning := true, score := 0, axis := Axis.x,
                      direction := 1, comboCounter := 0 }
  let events := [GameEvent.scoreUpdate 0 1]
  let st := spawnBaseBlock st
  (spawnNextBlock st).map (fun st => (st, events))

/-- `reviveGame`: no-op while playing, otherwise drop the most recent
debris entity, resume playing with no moving block and spawn a fresh
one. -/
def reviveGame (st : EngineState) : Option EngineState :=
  if st.isGameRunning = true then some st
  else
    let st := { st with debris := st.debris.dropLast }
    let st := { st with isGameRunning := true, currentBlock := none }
    spawnNextBlock st

def particleCount : ℕ := 20

/-- One particle of the perfect-placement burst (`spawnPerfectParticles`
loop body): random spread around the block top, life `1 + r/2`,
fully-opaque transparent material. -/
def mkParticle (pos : Vec3) (width depth : ℚ) (r : ParticleRand) : ParticleEntity :=
  let spreadX := (r.rx - 1/2) * width
  let spreadZ := (r.rz - 1/2) * depth
  { pos := ⟨pos.x + spreadX, pos.y + 1/2, pos.z + spreadZ⟩,
    rot := ⟨0, 0, 0⟩,
    velocity := r.velocity,
    life := 1 + r.rl * (1/2),
    opacity := 1 }

/-- `spawnPerfectParticles`: pushes `particleCount` fresh particles. -/
def spawnPerfectParticles (env : Env) (pos : Vec3) (width depth : ℚ)
    (st : EngineState) : EngineState :=
  let burst := (List.range particleCount).map
    (fun i => mkParticle pos width depth (env.prand i))
  { st with particles := st.particles ++ burst }

def debrisMinSize : ℚ := 1/20

/-- `handleSuccessfulPlacement`: trim the moving block to the
(`newWidth`, `newDepth`) geometry, recentre it by `delta / 2`, spawn a
debris fragment for the cut-off part when it is not a degenerate sliver,
push the block onto the tower, award `multiplier` points, report the
score, toggle the axis and spawn the next moving block. -/
def handleSuccessfulPlacement (env : Env) (delta newWidth newDepth : ℚ)
    (prevPos : Vec3) (st : EngineState) : Option (EngineState × List GameEvent) :=
  match st.currentBlock with
  | none => some (st, [])
  | some cur0 =>
    let cur1 : Block := { cur0 with width := newWidth, depth := newDepth }
    let shift := delta / 2
    let cur : Block :=
      match st.axis with
      | .x => { cur1 with pos := { cur1.pos with x := prevPos.x + shift } }
      | .z => { cur1 with pos := { cur1.pos with z := prevPos.z + shift } }
    let st := { st with currentBlock := some cur }
    let st :=
      if delta ≠ 0 then
        let dWidth := match st.axis with | .x => |delta| | .z => newWidth
        let dDepth := match st.axis with | .z => |delta| | .x => newDepth
        if debrisMinSize < dWidth ∧ debrisMinSize < dDepth then
          let debrisPos : Vec3 :=
            match st.axis with
            | .x => ⟨(if 0 < delta then cur.pos.x + newWidth / 2 + dWidth / 2
                      else cur.pos.x - newWidth / 2 - dWidth / 2),
                     cur.pos.y, cur.pos.z⟩
            | .z => ⟨cur.pos.x, cur.pos.y,
                     (if 0 < delta then cur.pos.z + newDepth / 2 + dDepth / 2
                      else cur.pos.z - newDepth / 2 - dDepth / 2)⟩
          let vx : ℚ :=
            match st.axis with
            | .x => delta * (3/10) + (if 0 < delta then 1/10 else -(1/10))
            | .z => (env.drand.r1 - 1/2) * (1/10)
          let vz : ℚ :=
            match st.axis with
            | .z => delta * (3/10) + (if 0 < delta then 1/10 else -(1/10))
            | .x => (env.drand.r2 - 1/2) * (1/10)
          let vy : ℚ := -(1/10) - env.drand.r3 * (3/10)
          let frag : DebrisEntity :=
            { block := { pos := debrisPos, width := dWidth, depth := dDepth },
              rot := ⟨0, 0, 0⟩,
              velocity := ⟨vx, vy, vz⟩,
              rotVelocity := ⟨(env.drand.r4 - 1/2) * (3/10),
                              (env.drand.r5 - 1/2) * (1/10),
                              (env.drand.r6 - 1/2) * (3/10)⟩ }
          { st with debris := st.debris.concat frag }
        else st
      else st
    let multiplier := scoreMultiplier st.comboCounter
    let newScore := st.score + multiplier
    let st := { st with stack := st.stack.concat cur, score := newScore }
    let events := [GameEvent.scoreUpdate newScore multiplier]
    let st := { st with axis := toggleAxis st.axis }
    (spawnNextBlock st).map (fun st => (st, events))

/-- `handleGameOver`: stop the game, turn the moving block into a debris
entity falling along the current direction, report the final score. -/
def handleGameOver (env : Env) (st : EngineState) : EngineState × List GameEvent :=
  let st := { st with isGameRunning := false }
  let st :=
    match st.currentBlock with
    | none => st
    | some cur =>
      let dirX : ℚ := if st.axis = Axis.x then (st.direction : ℚ) else 0
      let dirZ : ℚ := if st.axis = Axis.z then (st.direction : ℚ) else 0
      let frag : DebrisEntity :=
        { block := cur, rot := ⟨0, 0, 0⟩,
          velocity := ⟨dirX * (1/5), -(1/2), dirZ * (1/5)⟩,
          rotVelocity := ⟨(env.grand.r1 - 1/2) * (3/10),
                          (env.grand.r2 - 1/2) * (1/10),
                          (env.grand.r3 - 1/2) * (3/10)⟩ }
      { st with debris := st.debris.concat frag }
  (st, [GameEvent.gameOver st.score])

/-- `placeBlock`: defensive no-op when not playing or without a moving
block; otherwise compute `delta` and the tolerance, take the perfect or
the trimming branch, and dispatch on the strict positivity of the
resulting overlap. -/
def placeBlock (env : Env) (st : EngineState) : Option (EngineState × List GameEvent) :=
  if st.isGameRunning = false ∨ st.currentBlock = none then some (st, [])
  else
    match st.currentBlock with
    | none => some (st, [])
    | some current =>
      match st.stack.getLast? with
      | none => none
      | some prev =>
        let prevPos := prev.pos
        let currPos := current.pos
        let delta : ℚ :=
          match st.axis with
          | .x => currPos.x - prevPos.x
          | .z => currPos.z - prevPos.z
        let tol := currentTolerance st.score
        if |delta| < tol then
          let snapped : Block :=
            { current with pos :=
                match st.axis with
                | .x => { currPos with x := prevPos.x }
                | .z => { currPos with z := prevPos.z } }
          let st := { st with currentBlock := some snapped,
                              comboCounter := st.comboCounter + 1 }
          let st := spawnPerfectParticles env snapped.pos current.width current.depth st
          let overlap : ℚ :=
            match st.axis with
            | .x => current.width
            | .z => current.depth
          if 0 < overlap then
            handleSuccessfulPlacement env 0 current.width current.depth prevPos st
          else some (handleGameOver env st)
        else
          let st := { st with comboCounter := 0 }
          match st.axis with
          | .x =>
            let overlap := prev.width - |delta|
            if 0 < overlap then
              handleSuccessfulPlacement env delta overlap current.depth prevPos st
            else some (handleGameOver env st)
          | .z =>
            let overlap := prev.depth - |delta|
            if 0 < overlap then
              handleSuccessfulPlacement env delta current.width overlap prevPos st
            else some (handleGameOver env st)

/-- The overlap `placeBlock` computes in the state `st` (mirrors the two
branches of the source: full current extent after a perfect snap, tower
top extent minus `|delta|` otherwise). -/
def placementOverlap (st : EngineState) : Option ℚ :=
  match st.currentBlock, st.stack.getLast? with
  | some cur, some top =>
    let d := theDelta st.axis cur top
    if |d| < currentTolerance st.score then some (refExtent st.axis cur)
    else some (refExtent st.axis top - |d|)
  | _, _ => none

/-! ## Tick loop (`animate`) -/

def maxSpeed : ℚ := 2/5

/-- One tick of a debris entity: integrate position and rotation, then
apply gravity to the vertical velocity. -/
def stepDebrisOne (d : DebrisEntity) : DebrisEntity :=
  { d with
    block := { d.block with pos := ⟨d.block.pos.x + d.velocity.x,
                                    d.block.pos.y + d.velocity.y,
                                    d.block.pos.z + d.velocity.z⟩ },
    rot := ⟨d.rot.x + d.rotVelocity.x, d.rot.y + d.rotVelocity.y,
            d.rot.z + d.rotVelocity.z⟩,
    velocity := { d.velocity with y := d.velocity.y - 1/20 } }

/-- One tick of the debris collection: step every entity, then drop the
ones that fell below the world threshold. -/
def stepDebrisList (ds : List DebrisEntity) : List DebrisEntity :=
  (ds.map stepDebrisOne).filter (fun d => ! decide (d.block.pos.y < -30))

/-- One tick of a particle: decay the life by the fixed rate, integrate
position and rotation, and write the life into the material opacity. -/
def stepParticle (p : ParticleEntity) : ParticleEntity :=
  let life := p.life - 1/20
  { p with life := life,
           pos := ⟨p.pos.x + p.velocity.x, p.pos.y + p.velocity.y,
                   p.pos.z + p.velocity.z⟩,
           rot := ⟨p.rot.x + 1/10, p.rot.y + 1/10, p.rot.z⟩,
           opacity := life }

/-- One tick of the particle collection: step every particle, then
destroy the ones whose life dropped to `≤ 0`. -/
def stepParticles (ps : List ParticleEntity) : List ParticleEntity :=
  (ps.map stepParticle).filter (fun p => ! decide (p.life ≤ 0))

/-- One invocation of the `animate` callback: move the oscillating block
(reversing direction past the turnaround distance), then advance the
debris and particle simulations. Reading the top of an empty stack while
a moving block exists is a `TypeError`, hence `none`. -/
def animateTick (st : EngineState) : Option EngineState :=
  let moved : Option EngineState :=
    match st.isGameRunning, st.currentBlock with
    | true, some cur =>
      match st.stack.getLast? with
      | none => none
      | some top =>
        let speed := moveSpeed + (st.score : ℚ) * (1/200)
        let actualSpeed := min speed maxSpeed
        match st.axis with
        | .x =>
          let cur := { cur with pos :=
            { cur.pos with x := cur.pos.x + actualSpeed * (st.direction : ℚ) } }
          let dir := if 13 < |cur.pos.x - top.pos.x| then -st.direction else st.direction
          some { st with currentBlock := some cur, direction := dir }
        | .z =>
          let cur := { cur with pos :=
            { cur.pos with z := cur.pos.z + actualSpeed * (st.direction : ℚ) } }
          let dir := if 13 < |cur.pos.z - top.pos.z| then -st.direction else st.direction
          some { st with currentBlock := some cur, direction := dir }
    | _, _ => some st
  moved.map (fun st =>
    { st with debris := stepDebrisList st.debris,
              particles := stepParticles st.particles })

/-- `dispose`: cancel the animation frame, disconnect the observer and
release every owned entity (the running flag is untouched). -/
def dispose (st : EngineState) : EngineState :=
  cleanup { st with animationRunning := false }

/-- The state the constructor leaves behind: fresh fields, the idle
animation loop started, and the base block shown. -/
def initEngine : EngineState :=
  spawnBaseBlock
    { stack := [], debris := [], particles := [], animationRunning := true,
      isGameRunning := false, score := 0, axis := Axis.x, direction := 1,
      currentBlock := none, comboCounter := 0 }

/-- Environment action: the oscillation has carried the moving block to
signed offset `c` from the tower top along the active axis (the net
effect of a run of `animateTick`s on the moving block's coordinate). -/
def withBlockAt (c : ℚ) (st : EngineState) : EngineState :=
  match st.currentBlock, st.stack.getLast? with
  | some cur, some prev =>
    let pos : Vec3 :=
      match st.axis with
      | .x => { cur.pos with x := prev.pos.x + c }
      | .z => { cur.pos with z := prev.pos.z + c }
    { st with currentBlock := some { cur with pos := pos } }
  | _, _ => st

/-! ## Basic lemmas about the difficulty and combo model -/

theorem errorTolerance_le_currentTolerance (s : ℕ) :
    errorTolerance ≤ currentTolerance s := by
  unfold currentTolerance
  split_ifs with h
  · have hs : (s : ℚ) ≤ 15 := by exact_mod_cast Nat.le_of_lt_succ (by simpa [difficultyRamp] using Nat.lt_succ_of_lt h)
    rw [initialErrorTolerance, errorTolerance, difficultyRamp]
    push_cast
    nlinarith
  · exact le_refl _

theorem currentTolerance_pos (s : ℕ) : 0 < currentTolerance s :=
  lt_of_lt_of_le (by norm_num [errorTolerance]) (errorTolerance_le_currentTolerance s)

/-- C2: the score multiplier computed by `handleSuccessfulPlacement` is a
pure function `scoreMultiplier` of the combo counter: `1` below the
threshold and `floor (combo / threshold) + 1` from the threshold on. -/
theorem claim_C2 (c : ℕ) :
    (c < comboThreshold → scoreMultiplier c = 1) ∧
    (comboThreshold ≤ c → scoreMultiplier c = c / comboThreshold + 1) := by
  constructor
  · intro h
    simp [scoreMultiplier, Nat.not_le.mpr h]
  · intro h
    simp [scoreMultiplier, h]

/-- Witness for C2 at combo values 2, 3 and 6 (threshold 3). -/
theorem claim_C2_witness :
    scoreMultiplier 2 = 1 ∧ scoreMultiplier 3 = 2 ∧ scoreMultiplier 6 = 3 := by
  refine ⟨claim_C2 2 |>.1 (by decide), ?_, ?_⟩
  · have h := claim_C2 3 |>.2 (by decide)
    simpa [comboThreshold] using h
  · have h := claim_C2 6 |>.2 (by decide)
    simpa [comboThreshold] using h

/-- C3: the alignment tolerance used by `placeBlock` is monotonically
non-increasing in the score over `0 ≤ s < difficultyRamp` and equals
`errorTolerance` for every `s ≥ difficultyRamp`. -/
theorem claim_C3 :
    (∀ s1 s2 : ℕ, s1 ≤ s2 → s2 < difficultyRamp →
        currentTolerance s2 ≤ currentTolerance s1) ∧
    (∀ s : ℕ, difficultyRamp ≤ s → currentTolerance s = errorTolerance) := by
  constructor
  · intro s1 s2 h12 h2
    have h1 : s1 < difficultyRamp := lt_of_le_of_lt h12 h2
    have c12 : (s1 : ℚ) ≤ (s2 : ℚ) := by exact_mod_cast h12
    unfold currentTolerance
    rw [if_pos h1, if_pos h2]
    rw [initialErrorTolerance, errorTolerance, difficultyRamp]
    push_cast
    nlinarith
  · intro s h
    simp [currentTolerance, Nat.not_lt.mpr h]

/-- Witness for C3 at scores 2 ≤ 7 < 15 and 20 ≥ 15. -/
theorem claim_C3_witness :
    currentTolerance 7 ≤ currentTolerance 2 ∧ currentTolerance 20 = errorTolerance :=
  ⟨claim_C3.1 2 7 (by decide) (by decide), claim_C3.2 20 (by decide)⟩

/-! ## Simple lifecycle facts -/

/-- C10: `startGame` always succeeds and reports score `0` with
multiplier `1` through `onScoreUpdate` — its event list is exactly that
single score update, before any placement has happened. -/
theorem claim_C10 (st : EngineState) :
    ∃ st', startGame st = some (st', [GameEvent.scoreUpdate 0 1]) :=
  ⟨_, rfl⟩

/-- C8: teardown is not idempotent in the code. After `dispose` from a
non-running state, `reviveGame` reads the top of the now-empty stack and
throws a `TypeError` (modelled as `none`), and `startGame` restarts the
game (spawning entities and setting the running flag) even though the
renderer and the animation loop are gone. -/
theorem claim_C8 :
    reviveGame (dispose initEngine) = none ∧
    (startGame (dispose initEngine)).map (fun p => p.1.isGameRunning) = some true := by
  exact ⟨rfl, rfl⟩


/-! ## Characterisation of `placeBlock` -/

theorem spawnNextBlock_eq {st st' : EngineState} (h : spawnNextBlock st = some st') :
    ∃ top, st.stack.getLast? = some top ∧
      st' = { st with currentBlock := some (spawnedBlock st.axis st.comboCounter top) } := by
  unfold spawnNextBlock at h
  cases hl : st.stack.getLast? with
  | none => rw [hl] at h; exact absurd h (by simp)
  | some top =>
    rw [hl] at h
    exact ⟨top, rfl, by simpa using h.symm⟩

theorem withBlockAt_spec {st : EngineState} {cur top : Block} (c : ℚ)
    (hcur : st.currentBlock = some cur) (htop : st.stack.getLast? = some top) :
    ∃ cur', withBlockAt c st = { st with currentBlock := some cur' } ∧
      theDelta st.axis cur' top = c ∧
      cur'.width = cur.width ∧ cur'.depth = cur.depth := by
  unfold withBlockAt
  rw [hcur, htop]
  cases hax : st.axis <;>
    exact ⟨_, rfl, by simp [theDelta, hax], rfl, rfl⟩

theorem place_perfect (env : Env) (st : EngineState) (cur top : Block)
    (hrun : st.isGameRunning = true)
    (hcur : st.currentBlock = some cur)
    (htop : st.stack.getLast? = some top)
    (hd : |theDelta st.axis cur top| < currentTolerance st.score)
    (hpos : 0 < refExtent st.axis cur) :
    ∃ stF cur' placed,
      placeBlock env st = some (stF,
        [GameEvent.scoreUpdate (st.score + scoreMultiplier (st.comboCounter + 1))
          (scoreMultiplier (st.comboCounter + 1))]) ∧
      stF.score = st.score + scoreMultiplier (st.comboCounter + 1) ∧
      stF.comboCounter = st.comboCounter + 1 ∧
      stF.isGameRunning = true ∧
      stF.axis = toggleAxis st.axis ∧
      stF.currentBlock = some cur' ∧
      cur'.width = grownExtent (st.comboCounter + 1) cur.width ∧
      cur'.depth = grownExtent (st.comboCounter + 1) cur.depth ∧
      stF.stack.getLast? = some placed ∧
      placed.width = cur.width ∧ placed.depth = cur.depth := by
  obtain ⟨stack, debris, particles, anim, run, score, axis, dir, curO, combo⟩ := st
  simp only at hrun hcur htop hd hpos ⊢
  subst hrun
  subst hcur
  cases hax : axis <;> subst hax <;>
    simp only [theDelta] at hd <;>
    simp only [refExtent] at hpos <;>
    simp only [placeBlock, htop, hd, hpos, spawnPerfectParticles,
      handleSuccessfulPlacement, spawnNextBlock, spawnedBlock, toggleAxis,
      List.getLast?_concat, Option.map_some, ne_eq, if_true, if_false] <;>
    simp only [Bool.true_eq_false, reduceCtorEq, or_self, if_false] <;>
    norm_num


theorem place_nonperfect_success (env : Env) (st : EngineState) (cur top : Block)
    (hrun : st.isGameRunning = true)
    (hcur : st.currentBlock = some cur)
    (htop : st.stack.getLast? = some top)
    (hd : currentTolerance st.score ≤ |theDelta st.axis cur top|)
    (hov : 0 < refExtent st.axis top - |theDelta st.axis cur top|) :
    ∃ stF placed,
      placeBlock env st = some (stF, [GameEvent.scoreUpdate (st.score + 1) 1]) ∧
      stF.comboCounter = 0 ∧
      stF.isGameRunning = true ∧
      stF.score = st.score + 1 ∧
      stF.stack.getLast? = some placed ∧
      refExtent st.axis placed = refExtent st.axis top - |theDelta st.axis cur top| ∧
      perpExtent st.axis placed = perpExtent st.axis cur := by
  obtain ⟨stack, debris, particles, anim, run, score, axis, dir, curO, combo⟩ := st
  simp only at hrun hcur htop hd hov ⊢
  subst hrun
  subst hcur
  have hd' := not_lt.mpr hd
  cases hax : axis <;> subst hax <;>
    simp only [theDelta] at hd' hov ⊢ <;>
    simp only [refExtent, perpExtent] at hov ⊢ <;>
    simp only [placeBlock, htop, hd', hov, spawnPerfectParticles,
      handleSuccessfulPlacement, spawnNextBlock, spawnedBlock, toggleAxis,
      scoreMultiplier, comboThreshold,
      List.getLast?_concat, Option.map_some, ne_eq, if_true, if_false] <;>
    simp only [Bool.true_eq_false, reduceCtorEq, or_self, if_false] <;>
    split_ifs <;>
    norm_num

theorem place_miss (env : Env) (st : EngineState) (cur top : Block) (ov : ℚ)
    (hrun : st.isGameRunning = true)
    (hcur : st.currentBlock = some cur)
    (htop : st.stack.getLast? = some top)
    (hov : placementOverlap st = some ov) (hle : ov ≤ 0) :
    ∃ stF,
      placeBlock env st = some (stF, [GameEvent.gameOver st.score]) ∧
      stF.isGameRunning = false ∧ stF.score = st.score := by
  obtain ⟨stack, debris, particles, anim, run, score, axis, dir, curO, combo⟩ := st
  simp only at hrun hcur htop hov ⊢
  subst hrun
  subst hcur
  by_cases hp : |theDelta axis cur top| < currentTolerance score
  · have hovv : ov = refExtent axis cur := by
      simp only [placementOverlap, htop, hp, if_true] at hov
      exact (Option.some_injective _ hov).symm
    subst hovv
    have hle' := not_lt.mpr hle
    cases hax : axis <;> subst hax <;>
      simp only [theDelta] at hp <;>
      simp only [refExtent] at hle' <;>
      simp only [placeBlock, htop, hp, hle', spawnPerfectParticles, handleGameOver,
        if_true, if_false] <;>
      simp only [Bool.true_eq_false, reduceCtorEq, or_self, if_false] <;>
      norm_num
  · have hovv : ov = refExtent axis top - |theDelta axis cur top| := by
      simp only [placementOverlap, htop, hp, if_false] at hov
      exact (Option.some_injective _ hov).symm
    subst hovv
    have hle' := not_lt.mpr hle
    have hp' := not_lt.mp hp
    cases hax : axis <;> subst hax <;>
      simp only [theDelta] at hp hle' <;>
      simp only [refExtent] at hle' <;>
      simp only [placeBlock, htop, hp, hle', handleGameOver, if_true, if_false] <;>
      simp only [Bool.true_eq_false, reduceCtorEq, or_self, if_false] <;>
      norm_num

theorem place_nonperfect_miss (env : Env) (st : EngineState) (cur top : Block)
    (hrun : st.isGameRunning = true)
    (hcur : st.currentBlock = some cur)
    (htop : st.stack.getLast? = some top)
    (hd : currentTolerance st.score ≤ |theDelta st.axis cur top|)
    (hle : refExtent st.axis top - |theDelta st.axis cur top| ≤ 0) :
    ∃ stF,
      placeBlock env st = some (stF, [GameEvent.gameOver st.score]) ∧
      stF.isGameRunning = false ∧ stF.comboCounter = 0 ∧ stF.score = st.score := by
  obtain ⟨stack, debris, particles, anim, run, score, axis, dir, curO, combo⟩ := st
  simp only at hrun hcur htop hd hle ⊢
  subst hrun
  subst hcur
  have hd' := not_lt.mpr hd
  have hle' := not_lt.mpr hle
  cases hax : axis <;> subst hax <;>
    simp only [theDelta] at hd' hle' <;>
    simp only [refExtent] at hle' <;>
    simp only [placeBlock, htop, hd', hle', handleGameOver, if_true, if_false] <;>
    simp only [Bool.true_eq_false, reduceCtorEq, or_self, if_false] <;>
    norm_num

theorem place_success (env : Env) (st : EngineState) (cur top : Block) (ov : ℚ)
    (hrun : st.isGameRunning = true)
    (hcur : st.currentBlock = some cur)
    (htop : st.stack.getLast? = some top)
    (hov : placementOverlap st = some ov) (hpos : 0 < ov) :
    ∃ stF m, placeBlock env st = some (stF, [GameEvent.scoreUpdate (st.score + m) m]) ∧
      stF.isGameRunning = true := by
  by_cases hp : |theDelta st.axis cur top| < currentTolerance st.score
  · have hovv : ov = refExtent st.axis cur := by
      simp only [placementOverlap, hcur, htop, hp, if_true] at hov
      exact (Option.some_injective _ hov).symm
    obtain ⟨stF, cur', placed, h1, _, _, h4, _⟩ :=
      place_perfect env st cur top hrun hcur htop hp (hovv ▸ hpos)
    exact ⟨stF, _, h1, h4⟩
  · have hovv : ov = refExtent st.axis top - |theDelta st.axis cur top| := by
      simp only [placementOverlap, hcur, htop, hp, if_false] at hov
      exact (Option.some_injective _ hov).symm
    obtain ⟨stF, placed, h1, _, h3, _⟩ :=
      place_nonperfect_success env st cur top hrun hcur htop (not_lt.mp hp) (hovv ▸ hpos)
    exact ⟨stF, 1, h1, h3⟩

/-- C4 (amended): with a strict-positivity check, overlap `≤ 0` (zero
included) is a miss — the game stops and `onGameOver` fires exactly once
with the final score — and success requires strictly positive overlap;
an offset of at least the reference extent forces overlap `≤ 0` whenever
the drop is outside the tolerance (the perfect-snap branch not taken). -/
theorem claim_C4 (env : Env) (st : EngineState) (cur top : Block) (ov : ℚ)
    (hrun : st.isGameRunning = true)
    (hcur : st.currentBlock = some cur)
    (htop : st.stack.getLast? = some top)
    (hov : placementOverlap st = some ov) :
    (ov ≤ 0 → ∃ stF, placeBlock env st = some (stF, [GameEvent.gameOver st.score]) ∧
        stF.isGameRunning = false) ∧
    (0 < ov → ∃ stF m, placeBlock env st = some (stF, [GameEvent.scoreUpdate (st.score + m) m]) ∧
        stF.isGameRunning = true) ∧
    (currentTolerance st.score ≤ |theDelta st.axis cur top| →
      refExtent st.axis top ≤ |theDelta st.axis cur top| → ov ≤ 0) := by
  refine ⟨?_, ?_, ?_⟩
  · intro hle
    obtain ⟨stF, h1, h2, _⟩ := place_miss env st cur top ov hrun hcur htop hov hle
    exact ⟨stF, h1, h2⟩
  · intro hpos
    exact place_success env st cur top ov hrun hcur htop hov hpos
  · intro h1 h2
    have hp := not_lt.mpr h1
    simp only [placementOverlap, hcur, htop, hp, if_false] at hov
    have hovv := (Option.some_injective _ hov).symm
    rw [hovv]
    linarith

/-- The tower-top block of the counterexample state: a tower trimmed
down to extent `1/4` (reachable after five placements cut by `0.55`
each). -/
def stC4top : Block := { pos := ⟨0, 0, 0⟩, width := 1/4, depth := 1/4 }

/-- The moving block of the counterexample state, offset by `3/10`. -/
def stC4cur : Block := { pos := ⟨3/10, 1, 0⟩, width := 1/4, depth := 1/4 }

/-- A playing state at score 5 (tolerance `7/15`) whose blocks have been
trimmed below the tolerance. -/
def stC4 : EngineState :=
  { stack := [stC4top], debris := [], particles := [], animationRunning := true,
    isGameRunning := true, score := 5, axis := Axis.x, direction := 1,
    currentBlock := some stC4cur, comboCounter := 0 }

/-- C4 counterexample: in `stC4` the drop offset `3/10` is at least the
reference extent `1/4`, yet the placement is a perfect snap (the
tolerance at score 5 is `7/15 > 3/10`), so the game does not end: a
score update is reported and play continues. -/
theorem claim_C4_counterexample :
    refExtent stC4.axis stC4top ≤ |theDelta stC4.axis stC4cur stC4top| ∧
    stC4.isGameRunning = true ∧
    stC4.stack.getLast? = some stC4top ∧
    stC4.currentBlock = some stC4cur ∧
    ∃ stF, placeBlock env0 stC4 = some (stF, [GameEvent.scoreUpdate 6 1]) ∧
      stF.isGameRunning = true := by
  refine ⟨by norm_num [refExtent, theDelta, stC4, stC4top, stC4cur, abs_of_pos], rfl, rfl, rfl, ?_⟩
  obtain ⟨stF, cur', placed, h1, _, _, h4, _⟩ :=
    place_perfect env0 stC4 stC4cur stC4top rfl rfl rfl
      (by norm_num [theDelta, stC4, stC4cur, stC4top, currentTolerance,
        difficultyRamp, initialErrorTolerance, errorTolerance, abs_of_pos])
      (by norm_num [refExtent, stC4, stC4cur])
  have he : stC4.score + scoreMultiplier (stC4.comboCounter + 1) = 6 ∧
      scoreMultiplier (stC4.comboCounter + 1) = 1 := by
    norm_num [stC4, scoreMultiplier, comboThreshold]
  rw [he.1, he.2] at h1
  exact ⟨stF, h1, h4⟩

/-- The state right after `startGame` on a fresh engine. -/
def stStart : EngineState :=
  { stack := [baseBlock], debris := [], particles := [], animationRunning := true,
    isGameRunning := true, score := 0, axis := Axis.x, direction := 1,
    currentBlock := some { pos := ⟨-12, 1, 0⟩, width := 3, depth := 3 },
    comboCounter := 0 }

/-- Witness for C4: dropping the freshly spawned block where it spawns
(delta `-12`, overlap `-9 ≤ 0`) ends the game with one `onGameOver` at
score 0. -/
theorem claim_C4_witness :
    ∃ stF, placeBlock env0 stStart = some (stF, [GameEvent.gameOver stStart.score]) ∧
      stF.isGameRunning = false :=
  (claim_C4 env0 stStart { pos := ⟨-12, 1, 0⟩, width := 3, depth := 3 } baseBlock
    (-9) rfl rfl rfl
    (by norm_num [placementOverlap, stStart, baseBlock, theDelta, refExtent,
      currentTolerance, difficultyRamp, initialErrorTolerance, errorTolerance,
      defaultBlockSize, abs_of_neg])).1 (by norm_num)

/-- C5: for a non-perfect placement (offset at least the tolerance) the
combo counter is reset to 0, the computed overlap is the tower-top
extent along the active axis minus `|delta|`, and a successful placement
leaves the placed block's extent along the perpendicular axis exactly
the moving block's. -/
theorem claim_C5 (env : Env) (st : EngineState) (cur top : Block)
    (hrun : st.isGameRunning = true)
    (hcur : st.currentBlock = some cur)
    (htop : st.stack.getLast? = some top)
    (hd : currentTolerance st.score ≤ |theDelta st.axis cur top|) :
    placementOverlap st = some (refExtent st.axis top - |theDelta st.axis cur top|) ∧
    (∀ stF evs, placeBlock env st = some (stF, evs) → stF.comboCounter = 0) ∧
    (0 < refExtent st.axis top - |theDelta st.axis cur top| →
      ∃ stF placed, placeBlock env st = some (stF, [GameEvent.scoreUpdate (st.score + 1) 1]) ∧
        stF.stack.getLast? = some placed ∧
        refExtent st.axis placed = refExtent st.axis top - |theDelta st.axis cur top| ∧
        perpExtent st.axis placed = perpExtent st.axis cur) := by
  have hp := not_lt.mpr hd
  refine ⟨by simp only [placementOverlap, hcur, htop, hp, if_false], ?_, ?_⟩
  · intro stF evs h
    rcases lt_or_le 0 (refExtent st.axis top - |theDelta st.axis cur top|) with hpos | hle
    · obtain ⟨stF', placed, h1, h2, _⟩ :=
        place_nonperfect_success env st cur top hrun hcur htop hd hpos
      rw [h] at h1
      simp only [Option.some.injEq, Prod.mk.injEq] at h1
      rw [h1.1]
      exact h2
    · obtain ⟨stF', h1, _, h3, _⟩ :=
        place_nonperfect_miss env st cur top hrun hcur htop hd hle
      rw [h] at h1
      simp only [Option.some.injEq, Prod.mk.injEq] at h1
      rw [h1.1]
      exact h3
  · intro hpos
    obtain ⟨stF, placed, h1, _, _, _, h5, h6, h7⟩ :=
      place_nonperfect_success env st cur top hrun hcur htop hd hpos
    exact ⟨stF, placed, h1, h5, h6, h7⟩

/-- The moving block for the C5 witness, offset by `1`. -/
def stC5cur : Block := { pos := ⟨1, 1, 0⟩, width := 3, depth := 3 }

/-- A fresh-start playing state whose moving block sits at offset `1`
(outside the starting tolerance `3/5`). -/
def stC5 : EngineState :=
  { stack := [baseBlock], debris := [], particles := [], animationRunning := true,
    isGameRunning := true, score := 0, axis := Axis.x, direction := 1,
    currentBlock := some stC5cur, comboCounter := 0 }

/-- Witness for C5: the offset-1 drop from a fresh start computes
overlap `2 = 3 - 1`, succeeds with multiplier 1, and keeps the
perpendicular extent. -/
theorem claim_C5_witness :
    (placementOverlap stC5 = some (refExtent stC5.axis baseBlock -
        |theDelta stC5.axis stC5cur baseBlock|)) ∧
    (∃ stF placed, placeBlock env0 stC5 = some (stF, [GameEvent.scoreUpdate (stC5.score + 1) 1]) ∧
      stF.stack.getLast? = some placed ∧
      refExtent stC5.axis placed = refExtent stC5.axis baseBlock -
        |theDelta stC5.axis stC5cur baseBlock| ∧
      perpExtent stC5.axis placed = perpExtent stC5.axis stC5cur) :=
  ⟨(claim_C5 env0 stC5 stC5cur baseBlock rfl rfl rfl
      (by norm_num [theDelta, stC5, stC5cur, baseBlock, currentTolerance,
        difficultyRamp, initialErrorTolerance, errorTolerance, abs_of_pos])).1,
   (claim_C5 env0 stC5 stC5cur baseBlock rfl rfl rfl
      (by norm_num [theDelta, stC5, stC5cur, baseBlock, currentTolerance,
        difficultyRamp, initialErrorTolerance, errorTolerance, abs_of_pos])).2.2
     (by norm_num [refExtent, theDelta, stC5, stC5cur, baseBlock, defaultBlockSize,
        abs_of_pos])⟩

/-- C7: `placeBlock` while not playing or without a moving block returns
the state unchanged with no events; `reviveGame` while playing returns
the state unchanged; and after any successful revive the state is
Playing, so an immediately repeated `reviveGame` is a no-op. -/
theorem claim_C7 :
    (∀ (env : Env) (st : EngineState), st.isGameRunning = false ∨ st.currentBlock = none →
        placeBlock env st = some (st, [])) ∧
    (∀ st : EngineState, st.isGameRunning = true → reviveGame st = some st) ∧
    (∀ st st' : EngineState, reviveGame st = some st' →
        st'.isGameRunning = true ∧ reviveGame st' = some st') := by
  refine ⟨?_, ?_, ?_⟩
  · intro env st h
    unfold placeBlock
    rw [if_pos h]
  · intro st h
    unfold reviveGame
    rw [if_pos h]
  · intro st st' h
    unfold reviveGame at h
    by_cases hr : st.isGameRunning = true
    · rw [if_pos hr] at h
      obtain rfl := Option.some_injective _ h
      exact ⟨hr, by unfold reviveGame; rw [if_pos hr]⟩
    · rw [if_neg hr] at h
      obtain ⟨top, htop, rfl⟩ := spawnNextBlock_eq h
      exact ⟨rfl, by unfold reviveGame; rw [if_pos rfl]⟩

/-- The state `reviveGame` produces from the constructor state. -/
def stMenuRevived : EngineState :=
  { stack := [baseBlock], debris := [], particles := [], animationRunning := true,
    isGameRunning := true, score := 0, axis := Axis.x, direction := 1,
    currentBlock := some (spawnedBlock Axis.x 0 baseBlock), comboCounter := 0 }

/-- Witness for C7: `placeBlock` on the non-running constructor state is
a no-op, and reviving from it yields a Playing state on which a second
`reviveGame` is a no-op. -/
theorem claim_C7_witness :
    placeBlock env0 initEngine = some (initEngine, []) ∧
    stMenuRevived.isGameRunning = true ∧
    reviveGame stMenuRevived = some stMenuRevived :=
  ⟨claim_C7.1 env0 initEngine (Or.inl rfl),
   (claim_C7.2.2 initEngine stMenuRevived rfl).1,
   (claim_C7.2.2 initEngine stMenuRevived rfl).2⟩

/-- Membership in one particle tick: survivors are exactly the stepped
particles whose decayed life is still positive. -/
theorem stepParticles_mem (ps : List ParticleEntity) (q : ParticleEntity) :
    q ∈ stepParticles ps ↔ (∃ p ∈ ps, stepParticle p = q) ∧ 0 < q.life := by
  simp [stepParticles, List.mem_filter, List.mem_map, not_le]

/-- The randomness environment whose particle-life draws are `1/2`. -/
def envC9 : Env := ⟨fun _ => ⟨0, 0, 1/2, ⟨0, 0, 0⟩⟩, drand0, drand0⟩

/-- C9 counterexample: a particle of the perfect burst created with the
legal draw `Math.random() = 1/2` starts with life `5/4`, outside `[0,1]`. -/
theorem claim_C9_counterexample :
    ∃ p ∈ (spawnPerfectParticles envC9 ⟨0, 1, 0⟩ 3 3 stStart).particles,
      ¬ p.life ≤ 1 := by
  refine ⟨mkParticle ⟨0, 1, 0⟩ 3 3 ⟨0, 0, 1/2, ⟨0, 0, 0⟩⟩, ?_, ?_⟩
  · show mkParticle ⟨0, 1, 0⟩ 3 3 ⟨0, 0, 1/2, ⟨0, 0, 0⟩⟩ ∈
        stStart.particles ++ (List.range particleCount).map
          (fun i => mkParticle ⟨0, 1, 0⟩ 3 3 (envC9.prand i))
    refine List.mem_append_right _ ?_
    have h0 : (0 : ℕ) ∈ List.range particleCount := by simp [particleCount]
    exact List.mem_map_of_mem (fun i => mkParticle ⟨0, 1, 0⟩ 3 3 (envC9.prand i)) h0
  · norm_num [mkParticle]

/-- C9 (amended): a freshly spawned particle has life in `[1, 3/2)`;
each tick subtracts the fixed decay `1/20` from the life and writes the
result into the opacity; a particle survives a tick exactly when its
decayed life is still strictly positive (it is destroyed once life
reaches `≤ 0`); hence every live particle has life in `(0, 3/2)`. -/
theorem claim_C9_amended :
    (∀ (pos : Vec3) (w d : ℚ) (r : ParticleRand), 0 ≤ r.rl → r.rl < 1 →
        1 ≤ (mkParticle pos w d r).life ∧ (mkParticle pos w d r).life < 3/2) ∧
    (∀ p : ParticleEntity, (stepParticle p).life = p.life - 1/20 ∧
        (stepParticle p).opacity = p.life - 1/20) ∧
    (∀ (ps : List ParticleEntity) (q : ParticleEntity), q ∈ stepParticles ps ↔
        (∃ p ∈ ps, stepParticle p = q) ∧ 0 < q.life) ∧
    (∀ ps : List ParticleEntity, (∀ p ∈ ps, p.life < 3/2) →
        ∀ q ∈ stepParticles ps, 0 < q.life ∧ q.life < 3/2) := by
  refine ⟨?_, ?_, fun ps q => stepParticles_mem ps q, ?_⟩
  · intro pos w d r h0 h1
    constructor
    · simp only [mkParticle]
      nlinarith
    · simp only [mkParticle]
      nlinarith
  · intro p
    exact ⟨rfl, rfl⟩
  · intro ps h q hq
    obtain ⟨⟨p, hp, rfl⟩, hpos⟩ := (stepParticles_mem ps _).mp hq
    refine ⟨hpos, ?_⟩
    have hlt := h p hp
    simp only [stepParticle]
    linarith

/-- A particle with life 1 used in the C9 witness. -/
def pWit : ParticleEntity :=
  { pos := ⟨0, 0, 0⟩, rot := ⟨0, 0, 0⟩, velocity := ⟨0, 0, 0⟩, life := 1, opacity := 1 }

/-- Witness for C9 at the zero random draw and a life-1 particle. -/
theorem claim_C9_witness :
    (1 ≤ (mkParticle ⟨0, 0, 0⟩ 3 3 prand0).life ∧
        (mkParticle ⟨0, 0, 0⟩ 3 3 prand0).life < 3/2) ∧
    ((stepParticle pWit).life = pWit.life - 1/20 ∧
        (stepParticle pWit).opacity = pWit.life - 1/20) ∧
    (0 < (stepParticle pWit).life ∧ (stepParticle pWit).life < 3/2) := by
  refine ⟨claim_C9_amended.1 ⟨0, 0, 0⟩ 3 3 prand0 (by norm_num [prand0]) (by norm_num [prand0]),
    claim_C9_amended.2.1 pWit,
    claim_C9_amended.2.2.2 [pWit] ?_ (stepParticle pWit) ?_⟩
  · intro p hp
    simp only [List.mem_singleton] at hp
    subst hp
    norm_num [pWit]
  · refine (claim_C9_amended.2.2.1 [pWit] (stepParticle pWit)).mpr ?_
    exact ⟨⟨pWit, List.mem_singleton_self pWit, rfl⟩, by norm_num [stepParticle, pWit]⟩

theorem grownExtent_default (c : ℕ) : grownExtent c defaultBlockSize = defaultBlockSize := by
  unfold grownExtent
  rw [if_neg]
  rintro ⟨-, h⟩
  exact lt_irrefl _ h

theorem perfect_step_std (env : Env) (c : ℚ) (st : EngineState) (cur top : Block)
    (hrun : st.isGameRunning = true) (hcur : st.currentBlock = some cur)
    (htop : st.stack.getLast? = some top)
    (hw : cur.width = defaultBlockSize) (hdp : cur.depth = defaultBlockSize)
    (hd : |c| < currentTolerance st.score) :
    ∃ stF cur' top',
      placeBlock env (withBlockAt c st) = some (stF,
        [GameEvent.scoreUpdate (st.score + scoreMultiplier (st.comboCounter + 1))
          (scoreMultiplier (st.comboCounter + 1))]) ∧
      stF.score = st.score + scoreMultiplier (st.comboCounter + 1) ∧
      stF.comboCounter = st.comboCounter + 1 ∧
      stF.isGameRunning = true ∧
      stF.currentBlock = some cur' ∧
      cur'.width = defaultBlockSize ∧ cur'.depth = defaultBlockSize ∧
      stF.stack.getLast? = some top' := by
  obtain ⟨cur1, heq, hdel, hw1, hd1⟩ := withBlockAt_spec c hcur htop
  have hrun' : (withBlockAt c st).isGameRunning = true := by rw [heq]; exact hrun
  have hcur' : (withBlockAt c st).currentBlock = some cur1 := by rw [heq]
  have htop' : (withBlockAt c st).stack.getLast? = some top := by rw [heq]; exact htop
  have hax : (withBlockAt c st).axis = st.axis := by rw [heq]
  have hsc : (withBlockAt c st).score = st.score := by rw [heq]
  have hcb : (withBlockAt c st).comboCounter = st.comboCounter := by rw [heq]
  have hd' : |theDelta (withBlockAt c st).axis cur1 top| <
      currentTolerance (withBlockAt c st).score := by
    rw [hax, hsc, hdel]; exact hd
  have hpos' : 0 < refExtent (withBlockAt c st).axis cur1 := by
    have hre : refExtent st.axis cur1 = defaultBlockSize := by
      cases st.axis
      · simp only [refExtent]; rw [hw1, hw]
      · simp only [refExtent]; rw [hd1, hdp]
    rw [hax, hre]
    norm_num [defaultBlockSize]
  obtain ⟨stF, cur', placed, h1, h2, h3, h4, h5, h6, h7, h8, h9, h10, h11⟩ :=
    place_perfect env (withBlockAt c st) cur1 top hrun' hcur' htop' hd' hpos'
  rw [hsc, hcb] at h1 h2
  rw [hcb] at h3 h7 h8
  rw [hw1, hw, grownExtent_default] at h7
  rw [hd1, hdp, grownExtent_default] at h8
  exact ⟨stF, cur', placed, h1, h2, h3, h4, h6, h7, h8, h9⟩

theorem startGame_initEngine :
    startGame initEngine = some (stStart, [GameEvent.scoreUpdate 0 1]) := by
  norm_num [startGame, initEngine, spawnBaseBlock, cleanup, spawnNextBlock,
    spawnedBlock, grownExtent, comboThreshold, baseBlock, defaultBlockSize,
    blockHeight, spawnDist, stStart, Option.map, List.getLast?_singleton,
    EngineState.mk.injEq, Block.mk.injEq, Vec3.mk.injEq]

theorem fivePerfectRun (e1 e2 e3 e4 e5 : Env) (d1 d2 d3 d4 d5 : ℚ)
    (h1 : |d1| < currentTolerance 0) (h2 : |d2| < currentTolerance 1)
    (h3 : |d3| < currentTolerance 2) (h4 : |d4| < currentTolerance 4)
    (h5 : |d5| < currentTolerance 6) :
    ∃ st1 st2 st3 st4 st5 stF : EngineState,
      startGame initEngine = some (st1, [GameEvent.scoreUpdate 0 1]) ∧
      placeBlock e1 (withBlockAt d1 st1) = some (st2, [GameEvent.scoreUpdate 1 1]) ∧
      placeBlock e2 (withBlockAt d2 st2) = some (st3, [GameEvent.scoreUpdate 2 1]) ∧
      placeBlock e3 (withBlockAt d3 st3) = some (st4, [GameEvent.scoreUpdate 4 2]) ∧
      placeBlock e4 (withBlockAt d4 st4) = some (st5, [GameEvent.scoreUpdate 6 2]) ∧
      placeBlock e5 (withBlockAt d5 st5) = some (stF, [GameEvent.scoreUpdate 8 2]) ∧
      stF.score = 8 ∧ stF.comboCounter = 5 := by
  obtain ⟨st2, c2, t2, p1, s2, k2, r2, b2, w2, dp2, g2⟩ :=
    perfect_step_std e1 d1 stStart { pos := ⟨-12, 1, 0⟩, width := 3, depth := 3 }
      baseBlock rfl rfl rfl rfl rfl h1
  obtain ⟨st3, c3, t3, p2, s3, k3, r3, b3, w3, dp3, g3⟩ :=
    perfect_step_std e2 d2 st2 c2 t2 r2 b2 g2 w2 dp2 (by rw [s2]; exact h2)
  rw [s2, k2] at p2 s3
  rw [k2] at k3
  obtain ⟨st4, c4, t4, p3, s4, k4, r4, b4, w4, dp4, g4⟩ :=
    perfect_step_std e3 d3 st3 c3 t3 r3 b3 g3 w3 dp3 (by rw [s3]; exact h3)
  rw [s3, k3] at p3 s4
  rw [k3] at k4
  obtain ⟨st5, c5, t5, p4, s5, k5, r5, b5, w5, dp5, g5⟩ :=
    perfect_step_std e4 d4 st4 c4 t4 r4 b4 g4 w4 dp4 (by rw [s4]; exact h4)
  rw [s4, k4] at p4 s5
  rw [k4] at k5
  obtain ⟨stF, c6, t6, p5, s6, k6, r6, b6, w6, dp6, g6⟩ :=
    perfect_step_std e5 d5 st5 c5 t5 r5 b5 g5 w5 dp5 (by rw [s5]; exact h5)
  rw [s5, k5] at p5 s6
  rw [k5] at k6
  exact ⟨stStart, st2, st3, st4, st5, stF, startGame_initEngine, p1, p2, p3, p4, p5, s6, k6⟩

/-- C1 (amended): starting a game and making five consecutive perfect
placements (each drop offset within the tolerance at its step) leaves
`score = 8` — the per-placement awards are 1, 1, 2, 2, 2, because the
score increases by the multiplier — and `comboCounter = 5`, with the
multiplier reported through `onScoreUpdate` equal to 2 on the 3rd, 4th
and 5th placements (threshold 3). -/
theorem claim_C1 (e1 e2 e3 e4 e5 : Env) (d1 d2 d3 d4 d5 : ℚ)
    (h1 : |d1| < currentTolerance 0) (h2 : |d2| < currentTolerance 1)
    (h3 : |d3| < currentTolerance 2) (h4 : |d4| < currentTolerance 4)
    (h5 : |d5| < currentTolerance 6) :
    ∃ st1 st2 st3 st4 st5 stF : EngineState,
      startGame initEngine = some (st1, [GameEvent.scoreUpdate 0 1]) ∧
      placeBlock e1 (withBlockAt d1 st1) = some (st2, [GameEvent.scoreUpdate 1 1]) ∧
      placeBlock e2 (withBlockAt d2 st2) = some (st3, [GameEvent.scoreUpdate 2 1]) ∧
      placeBlock e3 (withBlockAt d3 st3) = some (st4, [GameEvent.scoreUpdate 4 2]) ∧
      placeBlock e4 (withBlockAt d4 st4) = some (st5, [GameEvent.scoreUpdate 6 2]) ∧
      placeBlock e5 (withBlockAt d5 st5) = some (stF, [GameEvent.scoreUpdate 8 2]) ∧
      stF.score = 8 ∧ stF.comboCounter = 5 :=
  fivePerfectRun e1 e2 e3 e4 e5 d1 d2 d3 d4 d5 h1 h2 h3 h4 h5

/-- C1 counterexample: the concrete run of five exactly-centred (hence
perfect) drops after `startGame` ends at `score = 8`, not 5, with
`comboCounter = 5`; the claimed final score 5 is refuted. -/
theorem claim_C1_counterexample :
    ∃ st1 st2 st3 st4 st5 stF : EngineState,
      startGame initEngine = some (st1, [GameEvent.scoreUpdate 0 1]) ∧
      placeBlock env0 (withBlockAt 0 st1) = some (st2, [GameEvent.scoreUpdate 1 1]) ∧
      placeBlock env0 (withBlockAt 0 st2) = some (st3, [GameEvent.scoreUpdate 2 1]) ∧
      placeBlock env0 (withBlockAt 0 st3) = some (st4, [GameEvent.scoreUpdate 4 2]) ∧
      placeBlock env0 (withBlockAt 0 st4) = some (st5, [GameEvent.scoreUpdate 6 2]) ∧
      placeBlock env0 (withBlockAt 0 st5) = some (stF, [GameEvent.scoreUpdate 8 2]) ∧
      stF.comboCounter = 5 ∧ stF.score = 8 ∧ ¬ stF.score = 5 := by
  have htol : ∀ s : ℕ, s < difficultyRamp → |(0 : ℚ)| < currentTolerance s := by
    intro s hs
    rw [abs_zero]
    exact currentTolerance_pos s
  obtain ⟨st1, st2, st3, st4, st5, stF, q0, q1, q2, q3, q4, q5, hsc, hcb⟩ :=
    fivePerfectRun env0 env0 env0 env0 env0 0 0 0 0 0
      (htol 0 (by decide)) (htol 1 (by decide)) (htol 2 (by decide))
      (htol 4 (by decide)) (htol 6 (by decide))
  exact ⟨st1, st2, st3, st4, st5, stF, q0, q1, q2, q3, q4, q5, hcb, hsc,
    by rw [hsc]; decide⟩

/-- Witness for C1 at all-zero drop offsets. -/
theorem claim_C1_witness :
    (|(0 : ℚ)| < currentTolerance 0) ∧ (|(0 : ℚ)| < currentTolerance 1) ∧
    (|(0 : ℚ)| < currentTolerance 2) ∧ (|(0 : ℚ)| < currentTolerance 4) ∧
    (|(0 : ℚ)| < currentTolerance 6) ∧
    (∃ st1 st2 st3 st4 st5 stF : EngineState,
      startGame initEngine = some (st1, [GameEvent.scoreUpdate 0 1]) ∧
      placeBlock env0 (withBlockAt 0 st1) = some (st2, [GameEvent.scoreUpdate 1 1]) ∧
      placeBlock env0 (withBlockAt 0 st2) = some (st3, [GameEvent.scoreUpdate 2 1]) ∧
      placeBlock env0 (withBlockAt 0 st3) = some (st4, [GameEvent.scoreUpdate 4 2]) ∧
      placeBlock env0 (withBlockAt 0 st4) = some (st5, [GameEvent.scoreUpdate 6 2]) ∧
      placeBlock env0 (withBlockAt 0 st5) = some (stF, [GameEvent.scoreUpdate 8 2]) ∧
      stF.score = 8 ∧ stF.comboCounter = 5) := by
  have htol : ∀ s : ℕ, |(0 : ℚ)| < currentTolerance s := by
    intro s
    rw [abs_zero]
    exact currentTolerance_pos s
  exact ⟨htol 0, htol 1, htol 2, htol 4, htol 6,
    claim_C1 env0 env0 env0 env0 env0 0 0 0 0 0
      (htol 0) (htol 1) (htol 2) (htol 4) (htol 6)⟩

/-! ## Block-size invariant -/

theorem le_grownExtent (c : ℕ) (e : ℚ) : e ≤ grownExtent c e := by
  unfold grownExtent
  split_ifs with h
  · refine le_min (le_of_lt h.2) ?_
    norm_num [growthFactor]
  · exact le_refl e

theorem grownExtent_le (c : ℕ) (e : ℚ) (h : e ≤ defaultBlockSize) :
    grownExtent c e ≤ defaultBlockSize := by
  unfold grownExtent
  split_ifs with hc
  · exact min_le_left _ _
  · exact h

/-- Both extents of a block stay within the configured maximum. -/
def BlockOk (b : Block) : Prop :=
  b.width ≤ defaultBlockSize ∧ b.depth ≤ defaultBlockSize

/-- Every block of the tower and the moving block (when present) stay
within the configured maximum size. -/
def BlockBound (st : EngineState) : Prop :=
  (∀ b ∈ st.stack, BlockOk b) ∧ (∀ b, st.currentBlock = some b → BlockOk b)

/-- The engine states reachable through the public interface from the
constructor state, with the tick loop and the oscillation (`withBlockAt`)
as environment steps. -/
inductive Reach : EngineState → Prop
  | init : Reach initEngine
  | start {st st' : EngineState} {evs : List GameEvent} :
      Reach st → startGame st = some (st', evs) → Reach st'
  | place {env : Env} {st st' : EngineState} {evs : List GameEvent} :
      Reach st → placeBlock env st = some (st', evs) → Reach st'
  | revive {st st' : EngineState} :
      Reach st → reviveGame st = some st' → Reach st'
  | tick {st st' : EngineState} :
      Reach st → animateTick st = some st' → Reach st'
  | teardown {st : EngineState} : Reach st → Reach (dispose st)
  | move {st : EngineState} (c : ℚ) : Reach st → Reach (withBlockAt c st)

theorem bound_spawnNextBlock {st st' : EngineState}
    (hb : BlockBound st) (h : spawnNextBlock st = some st') : BlockBound st' := by
  obtain ⟨top, htop, rfl⟩ := spawnNextBlock_eq h
  have htopOk : BlockOk top := hb.1 top (List.mem_of_mem_getLast? htop)
  refine ⟨hb.1, ?_⟩
  intro b hbeq
  obtain rfl := Option.some_injective _ hbeq.symm
  exact ⟨grownExtent_le _ _ htopOk.1, grownExtent_le _ _ htopOk.2⟩

theorem bound_spawnBaseBlock (st : EngineState) : BlockBound (spawnBaseBlock st) := by
  refine ⟨?_, ?_⟩
  · intro b hbm
    simp only [spawnBaseBlock, cleanup, List.mem_singleton] at hbm
    subst hbm
    exact ⟨le_refl _, le_refl _⟩
  · intro b hbeq
    simp only [spawnBaseBlock, cleanup] at hbeq
    exact absurd hbeq (by simp)

theorem bound_startGame {st st' : EngineState} {evs : List GameEvent}
    (h : startGame st = some (st', evs)) : BlockBound st' := by
  unfold startGame at h
  obtain ⟨s, hs, hfs⟩ := Option.map_eq_some'.mp h
  obtain ⟨rfl, -⟩ := Prod.mk.injEq .. ▸ hfs
  exact bound_spawnNextBlock (bound_spawnBaseBlock _) hs

theorem bound_reviveGame {st st' : EngineState}
    (hb : BlockBound st) (h : reviveGame st = some st') : BlockBound st' := by
  unfold reviveGame at h
  split_ifs at h with hr
  · obtain rfl := Option.some_injective _ h
    exact hb
  · refine bound_spawnNextBlock ⟨?_, ?_⟩ h
    · intro b hbm
      exact hb.1 b hbm
    · intro b hbeq
      exact absurd hbeq (by simp)

theorem bound_dispose {st : EngineState} (hb : BlockBound st) : BlockBound (dispose st) := by
  refine ⟨?_, ?_⟩
  · intro b hbm
    exact absurd hbm (by simp [dispose, cleanup])
  · intro b hbeq
    exact absurd hbeq (by simp [dispose, cleanup])

theorem bound_withBlockAt {st : EngineState} (c : ℚ) (hb : BlockBound st) :
    BlockBound (withBlockAt c st) := by
  unfold withBlockAt
  cases hcb : st.currentBlock with
  | none => exact hb
  | some cur =>
    cases hgl : st.stack.getLast? with
    | none => exact hb
    | some prev =>
      refine ⟨hb.1, ?_⟩
      intro b hbeq
      obtain rfl := Option.some_injective _ hbeq.symm
      exact hb.2 cur hcb

theorem bound_animateTick {st st' : EngineState}
    (hb : BlockBound st) (h : animateTick st = some st') : BlockBound st' := by
  unfold animateTick at h
  cases hr : st.isGameRunning <;> rw [hr] at h
  · obtain ⟨s, hs, rfl⟩ := Option.map_eq_some'.mp h
    obtain rfl := Option.some_injective _ hs.symm
    exact ⟨hb.1, hb.2⟩
  · cases hcb : st.currentBlock with
    | none =>
      rw [hcb] at h
      obtain ⟨s, hs, rfl⟩ := Option.map_eq_some'.mp h
      obtain rfl := Option.some_injective _ hs.symm
      exact ⟨hb.1, hb.2⟩
    | some cur =>
      rw [hcb] at h
      cases hgl : st.stack.getLast? with
      | none =>
        rw [hgl] at h
        simp at h
      | some top =>
        rw [hgl] at h
        have hcOk := hb.2 cur hcb
        cases hax : st.axis <;> rw [hax] at h <;>
          obtain ⟨s, hs, rfl⟩ := Option.map_eq_some'.mp h <;>
          obtain rfl := Option.some_injective _ hs.symm <;>
          exact ⟨hb.1, by intro b hbeq; obtain rfl := Option.some_injective _ hbeq.symm; exact hcOk⟩

theorem bound_concat_state {stack : List Block} {cur : Block}
    (hstack : ∀ b ∈ stack, BlockOk b)
    (hcur : BlockOk cur) :
    ∀ b ∈ stack.concat cur, BlockOk b := by
  intro b hbm
  simp only [List.concat_eq_append, List.mem_append, List.mem_singleton] at hbm
  rcases hbm with hbm | rfl
  · exact hstack b hbm
  · exact hcur

theorem bound_handleGameOver (env : Env) {st : EngineState} (hb : BlockBound st) :
    BlockBound (handleGameOver env st).1 := by
  unfold handleGameOver
  cases hcb : st.currentBlock with
  | none => exact ⟨hb.1, fun b hbeq => absurd hbeq (by simp)⟩
  | some cur =>
    refine ⟨hb.1, fun b hbeq => ?_⟩
    obtain rfl := Option.some_injective _ hbeq.symm
    exact hb.2 _ hcb

theorem bound_placeBlock {env : Env} {st st' : EngineState} {evs : List GameEvent}
    (hb : BlockBound st) (h : placeBlock env st = some (st', evs)) : BlockBound st' := by
  obtain ⟨stack, debris, particles, anim, run, score, axis, dir, curO, combo⟩ := st
  obtain ⟨hstack, hcurO⟩ := hb
  simp only at hstack hcurO h ⊢
  unfold placeBlock at h
  by_cases hg : run = false ∨ curO = none
  · rw [if_pos hg] at h
    obtain ⟨rfl, -⟩ := Prod.mk.injEq .. ▸ Option.some_injective _ h
    exact ⟨hstack, hcurO⟩
  · rw [if_neg hg] at h
    cases hcb : curO with
    | none => exact absurd (Or.inr rfl) (hcb ▸ hg)
    | some cur =>
      subst hcb
      have hcOk : BlockOk cur := hcurO cur rfl
      cases hgl : stack.getLast? with
      | none =>
        rw [hgl] at h
        simp at h
      | some top =>
        rw [hgl] at h
        have htOk : BlockOk top := hstack top (List.mem_of_mem_getLast? hgl)
        cases hax : axis <;> subst hax <;>
          simp only [placeBlock, handleSuccessfulPlacement, spawnPerfectParticles,
            ne_eq, eq_self_iff_true, not_true, if_false, if_true] at h <;>
          split_ifs at h <;>
          first
          | (have heq := Option.some_injective _ h
             have hst : _ = st' := congrArg Prod.fst heq
             refine hst ▸ bound_handleGameOver env ⟨hstack, ?_⟩
             intro b hbeq
             obtain rfl := Option.some_injective _ hbeq.symm
             exact ⟨hcOk.1, hcOk.2⟩)
          | (obtain ⟨s, hs, hfs⟩ := Option.map_eq_some'.mp h
             obtain rfl : s = st' := congrArg Prod.fst hfs
             refine bound_spawnNextBlock ⟨bound_concat_state hstack ?_, ?_⟩ hs
             · constructor <;>
                 first
                 | exact hcOk.1
                 | exact hcOk.2
                 | exact le_trans (sub_le_self _ (abs_nonneg _)) htOk.1
                 | exact le_trans (sub_le_self _ (abs_nonneg _)) htOk.2
             · intro b hbeq
               obtain rfl := Option.some_injective _ hbeq.symm
               constructor <;>
                 first
                 | exact hcOk.1
                 | exact hcOk.2
                 | exact le_trans (sub_le_self _ (abs_nonneg _)) htOk.1
                 | exact le_trans (sub_le_self _ (abs_nonneg _)) htOk.2)

/-- The size bound is an invariant of every reachable engine state. -/
theorem reach_blockBound : ∀ st : EngineState, Reach st → BlockBound st := by
  intro st h
  induction h with
  | init =>
    refine ⟨?_, ?_⟩
    · intro b hbm
      simp only [initEngine, spawnBaseBlock, cleanup, List.mem_singleton] at hbm
      subst hbm
      exact ⟨le_refl _, le_refl _⟩
    · intro b hbeq
      simp [initEngine, spawnBaseBlock, cleanup] at hbeq
  | start _ h _ => exact bound_startGame h
  | place _ h ih => exact bound_placeBlock ih h
  | revive _ h ih => exact bound_reviveGame ih h
  | tick _ h ih => exact bound_animateTick ih h
  | teardown _ ih => exact bound_dispose ih
  | move c _ ih => exact bound_withBlockAt c ih

/-- C6: block growth is monotone and bounded — every extent grows (never
shrinks) under the combo growth rule, the spawned moving block's extents
are the tower-top extents after growth (hence at least the extents of
the block it spawns from), growth is capped at `defaultBlockSize`, and
in every reachable engine state no tower block or moving block exceeds
`defaultBlockSize` in either extent. -/
theorem claim_C6 :
    (∀ (c : ℕ) (e : ℚ), e ≤ grownExtent c e) ∧
    (∀ st st' : EngineState, spawnNextBlock st = some st' → ∃ top cur,
        st.stack.getLast? = some top ∧ st'.currentBlock = some cur ∧
        top.width ≤ cur.width ∧ top.depth ≤ cur.depth ∧
        cur.width = grownExtent st.comboCounter top.width ∧
        cur.depth = grownExtent st.comboCounter top.depth) ∧
    (∀ (c : ℕ) (e : ℚ), e ≤ defaultBlockSize → grownExtent c e ≤ defaultBlockSize) ∧
    (∀ st : EngineState, Reach st → BlockBound st) := by
  refine ⟨le_grownExtent, ?_, grownExtent_le, reach_blockBound⟩
  intro st st' h
  obtain ⟨top, htop, rfl⟩ := spawnNextBlock_eq h
  exact ⟨top, spawnedBlock st.axis st.comboCounter top, htop, rfl,
    le_grownExtent _ _, le_grownExtent _ _, rfl, rfl⟩

/-- The state `spawnNextBlock` produces from the constructor state. -/
def stInitSpawn : EngineState :=
  { stack := [baseBlock], debris := [], particles := [], animationRunning := true,
    isGameRunning := false, score := 0, axis := Axis.x, direction := 1,
    currentBlock := some (spawnedBlock Axis.x 0 baseBlock), comboCounter := 0 }

/-- Witness for C6 at concrete extents and the constructor state. -/
theorem claim_C6_witness :
    ((3 : ℚ) ≤ grownExtent 5 3) ∧
    (∃ top cur, initEngine.stack.getLast? = some top ∧
      stInitSpawn.currentBlock = some cur ∧
      top.width ≤ cur.width ∧ top.depth ≤ cur.depth ∧
      cur.width = grownExtent initEngine.comboCounter top.width ∧
      cur.depth = grownExtent initEngine.comboCounter top.depth) ∧
    (grownExtent 4 (5/2) ≤ defaultBlockSize) ∧
    BlockBound initEngine :=
  ⟨claim_C6.1 5 3,
   claim_C6.2.1 initEngine stInitSpawn rfl,
   claim_C6.2.2.1 4 (5/2) (by norm_num [defaultBlockSize]),
   claim_C6.2.2.2 initEngine Reach.init⟩

end TowerGame
